import Mathlib

/-!
Shallow embedding of `src/api/index.py` (stress-experiment backend):
the timeline content store (`TimelineManager.get_posts`), the text
cleaner (`clean_text_line`), the schema resolver
(`get_phase_to_column_mapping`) and the VAS score ledger (`save_vas`),
together with theorems settling the specification claims about them.
-/

namespace StressExp

/-! ### Python value model

`request.json` fields are JSON values.  We model the values relevant to
the claims: integers, fractional numbers (as rationals), strings and
`None`/absent. -/

inductive PyVal where
  | vint : Int → PyVal
  | vfloat : Rat → PyVal
  | vstr : String → PyVal
  | vnone : PyVal
  deriving DecidableEq, Repr

/-- Truncation toward zero, the behaviour of Python `int()` on a float.
`Int.div` is T-division (rounds toward zero). -/
def pytrunc (q : Rat) : Int := Int.tdiv q.num q.den

/-! ### `clean_text_line` (src/api/index.py lines 128-133)

```python
def clean_text_line(text):
    if not isinstance(text, str):
        return ""
    cleaned = re.sub(r'^\s*([A-Za-z0-9_]+:|@\w+\s*:|\s*[-\*\d\.]+\s*)', '', text)
    return cleaned.strip().strip('「」')
```

The regex is anchored at the string start, so `re.sub` performs at most
one substitution.  The engine consumes the leading whitespace, then
tries the three alternatives in order; the third alternative's own
leading `\s*` means it fires exactly when the first non-space character
is a marker. -/

/-- ASCII portion of Python's `\s` character class. -/
def isPySpace (c : Char) : Bool :=
  c = ' ' || c = '\t' || c = '\n' || c = '\r' || c = '\x0b' || c = '\x0c'

/-- ASCII portion of `\w` / the class `[A-Za-z0-9_]`. -/
def isWordChar (c : Char) : Bool :=
  c.isAlphanum || c = '_'

/-- The list/numbering marker class `[-\*\d\.]`. -/
def isMarker (c : Char) : Bool :=
  c = '-' || c = '*' || c.isDigit || c = '.'

/-- First regex alternative `[A-Za-z0-9_]+:` (greedy run of word
characters, then a colon): on success, the remainder of the input after
the matched token. -/
def altUser (cs : List Char) : Option (List Char) :=
  if cs.takeWhile isWordChar = [] then none
  else if (cs.dropWhile isWordChar).head? = some ':' then
    some (cs.dropWhile isWordChar).tail
  else none

/-- Second regex alternative `@\w+\s*:`. -/
def altHandle (cs : List Char) : Option (List Char) :=
  if cs.head? = some '@' then
    if cs.tail.takeWhile isWordChar = [] then none
    else if ((cs.tail.dropWhile isWordChar).dropWhile isPySpace).head? = some ':' then
      some ((cs.tail.dropWhile isWordChar).dropWhile isPySpace).tail
    else none
  else none

/-- Third regex alternative `\s*[-\*\d\.]+\s*`, applied after the outer
`\s*` has already consumed the leading whitespace. -/
def altMarkers (cs : List Char) : Option (List Char) :=
  if cs.takeWhile isMarker = [] then none
  else some ((cs.dropWhile isMarker).dropWhile isPySpace)

/-- `re.sub(r'^\s*([A-Za-z0-9_]+:|@\w+\s*:|\s*[-\*\d\.]+\s*)', '', text)`:
the pattern is anchored, so at most one leftmost match is removed; the
alternatives are tried in order after the outer `\s*`.  When no
alternative matches, the input is returned unchanged. -/
def reSubToken (cs : List Char) : List Char :=
  match altUser (cs.dropWhile isPySpace) with
  | some r => r
  | none =>
    match altHandle (cs.dropWhile isPySpace) with
    | some r => r
    | none =>
      match altMarkers (cs.dropWhile isPySpace) with
      | some r => r
      | none => cs

/-- Python `str.strip()` on character lists. -/
def stripWs (cs : List Char) : List Char :=
  ((cs.dropWhile isPySpace).reverse.dropWhile isPySpace).reverse

/-- Python `str.strip('「」')` on character lists. -/
def isCornerQuote (c : Char) : Bool := c = '「' || c = '」'

def stripQuotes (cs : List Char) : List Char :=
  ((cs.dropWhile isCornerQuote).reverse.dropWhile isCornerQuote).reverse

/-- Decimal digit accumulation, for `int()` on strings. -/
def digitsToNat (cs : List Char) : Nat :=
  cs.foldl (fun n c => n * 10 + (c.toNat - '0'.toNat)) 0

/-- Python `int()` applied to a string: surrounding whitespace is
ignored, an optional sign is followed by one or more decimal digits;
anything else raises (`none`).  (Underscore digit separators are not
modelled.) -/
def parseIntStr (s : String) : Option Int :=
  match stripWs s.data with
  | '-' :: ds =>
    if ds ≠ [] ∧ ds.all Char.isDigit then some (-(digitsToNat ds : Int)) else none
  | '+' :: ds =>
    if ds ≠ [] ∧ ds.all Char.isDigit then some (digitsToNat ds) else none
  | ds =>
    if ds ≠ [] ∧ ds.all Char.isDigit then some (digitsToNat ds) else none

/-- Python `int(x)`: identity on ints, truncation toward zero on
fractional numbers, digit parsing on strings; `none` models the
`ValueError`/`TypeError` raised on anything unconvertible. -/
def pyIntOf : PyVal → Option Int
  | .vint n => some n
  | .vfloat q => some (pytrunc q)
  | .vstr s => parseIntStr s
  | .vnone => none

/-- The string-to-string core of `clean_text_line`. -/
def cleanStr (s : String) : String :=
  String.mk (stripQuotes (stripWs (reSubToken s.data)))

/-- `clean_text_line`: non-string input returns the empty string. -/
def clean_text_line : PyVal → String
  | .vstr s => cleanStr s
  | _ => ""

/-! ### Timeline content store (src/api/index.py lines 136-225)

`TimelineManager.data_store` is a dict with keys `warmup` (a flat list)
and `weak`/`mid`/`strong` (dicts keyed by time window).  `get_posts`
special-cases `warmup`, then falls back to the nested lookup; looking a
phase up "in" the warm-up list is Python membership of a string in a
list of dicts, which is always `False`. -/

structure Post where
  text : String
  deriving DecidableEq, Repr

inductive StoreVal where
  | pool (items : List Post)
  | table (t : List (String × List Post))
  deriving DecidableEq, Repr

structure DataStore where
  warmup : List Post
  weak : List (String × List Post)
  mid : List (String × List Post)
  strong : List (String × List Post)
  deriving DecidableEq, Repr

/-- The key/value view of `self.data_store`. -/
def storeEntries (ds : DataStore) : List (String × StoreVal) :=
  [("warmup", .pool ds.warmup), ("weak", .table ds.weak),
   ("mid", .table ds.mid), ("strong", .table ds.strong)]

/-- The store as built by `__init__`/`load_all_data`: each condition dict
has exactly the keys `0-5`, `5-10`, `10-15`. -/
def mkCondTable (a b c : List Post) : List (String × List Post) :=
  [("0-5", a), ("5-10", b), ("10-15", c)]

def mkDataStore (w w05 w510 w1015 m05 m510 m1015 s05 s510 s1015 : List Post) :
    DataStore :=
  { warmup := w
    weak := mkCondTable w05 w510 w1015
    mid := mkCondTable m05 m510 m1015
    strong := mkCondTable s05 s510 s1015 }

/-- `TimelineManager.get_posts`.  `samp` stands for `random.sample`:
the hidden random state is abstracted as a function argument, so that a
single call site is a single application. -/
def get_posts (samp : List Post → Nat → List Post) (ds : DataStore)
    (condition phase : String) : List Post :=
  if phase = "warmup" then
    if ds.warmup = [] then []
    else samp ds.warmup (min ds.warmup.length 50)
  else
    match (storeEntries ds).lookup condition with
    | some (.pool _) => []
    | some (.table t) =>
      match t.lookup phase with
      | some posts => posts
      | none => []
    | none => []

/-- What `random.sample(data, k)` guarantees for `k ≤ len(data)`: a
list of `k` items drawn from `data` without replacement (a
sub-permutation of `data`). -/
def SampleSpec (samp : List Post → Nat → List Post) : Prop :=
  ∀ (data : List Post) (k : Nat), k ≤ data.length →
    (samp data k).length = k ∧ List.Subperm (samp data k) data

/-! ### Schema resolver (src/api/index.py lines 358-420) -/

/-- What the one-row probe of `experiment_logs` can report. -/
inductive Probe where
  | unconfigured
  | unreachable
  | row (cols : List String)
  deriving DecidableEq, Repr

def defaultPhaseMap : List (String × String) :=
  [("pre", "vas_pre"), ("warmup", "vas_warmup"), ("0-5", "vas_phase1"),
   ("5-10", "vas_phase2"), ("10-15", "vas_phase3")]

/-- The `if c1 in actual_columns: ... elif c2 in ...: ... else: keep
default` chain, as first-match over the candidate list. -/
def pickColumn (cols : List String) (cands : List String) (dflt : String) : String :=
  (cands.find? (fun c => cols.contains c)).getD dflt

def warmupCands : List String := ["vas_warmup", "vas_war"]
def phase1Cands : List String := ["vas_phase1", "vas_phase_0_5", "vas_pha1"]
def phase2Cands : List String := ["vas_phase2", "vas_phase_5_10", "vas_pha2"]
def phase3Cands : List String := ["vas_phase3", "vas_phase_10_15", "vas_pha3"]

/-- `get_phase_to_column_mapping`: the `pre` entry is never adjusted;
an unconfigured client, a failed probe, or an empty table all keep the
default map. -/
def get_phase_to_column_mapping : Probe → List (String × String)
  | .unconfigured => defaultPhaseMap
  | .unreachable => defaultPhaseMap
  | .row cols =>
    if cols = [] then defaultPhaseMap
    else
      [("pre", "vas_pre"),
       ("warmup", pickColumn cols warmupCands "vas_warmup"),
       ("0-5", pickColumn cols phase1Cands "vas_phase1"),
       ("5-10", pickColumn cols phase2Cands "vas_phase2"),
       ("10-15", pickColumn cols phase3Cands "vas_phase3")]

/-- The resolver's contract in the spec's own words: canonical name
first, then the ordered alternates, else the canonical default. -/
def canonicalOf (p : String) : String :=
  ((defaultPhaseMap.lookup p).getD "")

def altsOf (p : String) : List String :=
  if p = "warmup" then ["vas_war"]
  else if p = "0-5" then ["vas_phase_0_5", "vas_pha1"]
  else if p = "5-10" then ["vas_phase_5_10", "vas_pha2"]
  else if p = "10-15" then ["vas_phase_10_15", "vas_pha3"]
  else []

/-! ### VAS score ledger (src/api/index.py lines 422-576) -/

structure VasRecord where
  id : Nat
  participant_name : String
  filter_condition : String
  status : Option String
  fields : List (String × Int)
  deriving DecidableEq, Repr

inductive VasOutcome where
  | badRequest (msg : String)
  | serverError (msg : String)
  | ok (message : String) (column : String) (value : Int)
  deriving DecidableEq, Repr

/-- Writing one column of a row: overwrite it when present, otherwise
materialize it (a row always has every schema column; absent here just
means NULL so far). -/
def setField (fs : List (String × Int)) (k : String) (v : Int) :
    List (String × Int) :=
  if fs.any (fun p => p.1 = k) then
    fs.map (fun p => if p.1 = k then (p.1, v) else p)
  else fs ++ [(k, v)]

/-- The `select('id,status').eq(participant).eq(condition).order('id',
desc=True).limit(1)` query: the matching row of greatest id. -/
def latestRecord (db : List VasRecord) (uid cond : String) : Option VasRecord :=
  (db.filter (fun r => r.participant_name = uid && r.filter_condition = cond)).foldl
    (fun acc r =>
      match acc with
      | none => some r
      | some a => some (if a.id < r.id then r else a))
    none

/-- A fresh auto-assigned id for an insert. -/
def freshId (db : List VasRecord) : Nat :=
  (db.map VasRecord.id).foldr max 0 + 1

/-- The pre-write column-existence check (lines 467-489): skipped when
the probe raises (the exception is caught) or the table is empty. -/
def columnCheck (probe : Probe) (col : String) : Bool :=
  match probe with
  | .row cols => cols.isEmpty || cols.contains col
  | _ => true

def insertedRecord (db : List VasRecord) (uid cond col : String) (v : Int) :
    VasRecord :=
  { id := freshId db, participant_name := uid, filter_condition := cond,
    status := some "in_progress", fields := [(col, v)] }

/-- `save_vas` (`POST /api/vas`).  The request fields arrive as
optional strings (`data.get(...)`); the outcome carries the HTTP
classification and the resulting table contents. -/
def save_vas (probe : Probe) (db : List VasRecord)
    (user_id condition phase : Option String) (vas_score : PyVal) :
    VasOutcome × List VasRecord :=
  if user_id = none ∨ user_id = some "" ∨
      ¬(condition = some "weak" ∨ condition = some "mid" ∨ condition = some "strong") then
    (.badRequest "Invalid data", db)
  else if (phase = none ∨ phase = some "") ∨
      ¬(phase = some "pre" ∨ phase = some "warmup" ∨ phase = some "0-5" ∨
        phase = some "5-10" ∨ phase = some "10-15") then
    (.badRequest "Invalid phase", db)
  else if vas_score = .vnone then
    (.badRequest "vas_score is required", db)
  else if probe = .unconfigured then
    (.serverError "Database not configured", db)
  else
    let uid := user_id.getD ""
    let cond := condition.getD ""
    let ph := phase.getD ""
    match (get_phase_to_column_mapping probe).lookup ph with
    | none => (.badRequest "Invalid phase mapping", db)
    | some column_name =>
      if columnCheck probe column_name then
        match latestRecord db uid cond with
        | some latest =>
          if latest.status ≠ some "completed" then
            match pyIntOf vas_score with
            | none => (.serverError "int conversion failed", db)
            | some v =>
              (.ok ("Updated record " ++ toString latest.id) column_name v,
               db.map (fun r =>
                 if r.id = latest.id then
                   { r with fields := setField r.fields column_name v,
                            status := if ph = "10-15" then some "completed" else r.status }
                 else r))
          else
            if ph = "pre" then
              match pyIntOf vas_score with
              | none => (.serverError "int conversion failed", db)
              | some v =>
                (.ok "Created new record" column_name v,
                 db ++ [insertedRecord db uid cond column_name v])
            else
              (.badRequest "Previous experiment is completed. Please start with pre phase.", db)
        | none =>
          if ph = "pre" then
            match pyIntOf vas_score with
            | none => (.serverError "int conversion failed", db)
            | some v =>
              (.ok "Created new record" column_name v,
               db ++ [insertedRecord db uid cond column_name v])
          else
            (.badRequest "No existing record found. Please start with pre phase.", db)
      else
        (.badRequest "Column not found in table", db)

/-! ## Theorems -/

/-! ### Generic trimming lemmas -/

lemma takeWhile_dropWhile_nil (p : Char → Bool) (l : List Char) :
    (l.dropWhile p).takeWhile p = [] := by
  induction l with
  | nil => rfl
  | cons a t ih =>
    by_cases h : p a = true
    · rw [List.dropWhile_cons, if_pos h]; exact ih
    · rw [List.dropWhile_cons, if_neg h, List.takeWhile_cons, if_neg h]

lemma takeWhile_trim_reverse (p : Char → Bool) (l : List Char)
    (h : l.takeWhile p = []) :
    ((l.reverse.dropWhile p).reverse).takeWhile p = [] := by
  cases l with
  | nil => rfl
  | cons a t =>
    have ha : ¬ p a = true := by
      intro hpa
      rw [List.takeWhile_cons, if_pos hpa] at h
      exact List.noConfusion h
    rw [List.reverse_cons, List.dropWhile_append]
    by_cases hd : (t.reverse.dropWhile p).isEmpty = true
    · rw [if_pos hd]
      simp [List.dropWhile_cons, ha, List.takeWhile_cons]
    · rw [if_neg hd]
      simp [List.reverse_append, List.takeWhile_cons, ha]

lemma stripWs_no_leading (cs : List Char) :
    (stripWs cs).takeWhile isPySpace = [] :=
  takeWhile_trim_reverse isPySpace (cs.dropWhile isPySpace)
    (takeWhile_dropWhile_nil _ _)

lemma stripWs_no_trailing (cs : List Char) :
    (stripWs cs).reverse.takeWhile isPySpace = [] := by
  unfold stripWs
  rw [List.reverse_reverse]
  exact takeWhile_dropWhile_nil _ _

lemma dropWhile_eq_self_of_all (p : Char → Bool) (l : List Char)
    (h : ∀ c ∈ l, ¬ p c = true) : l.dropWhile p = l := by
  cases l with
  | nil => rfl
  | cons a t => rw [List.dropWhile_cons, if_neg (h a (List.mem_cons_self a t))]

lemma stripQuotes_eq_self (cs : List Char)
    (h : ∀ c ∈ cs, ¬ isCornerQuote c = true) : stripQuotes cs = cs := by
  unfold stripQuotes
  rw [dropWhile_eq_self_of_all _ _ h]
  rw [dropWhile_eq_self_of_all _ _ (fun c hc => h c (List.mem_reverse.mp hc))]
  exact List.reverse_reverse cs

lemma stripWs_subset (cs : List Char) : stripWs cs ⊆ cs := by
  unfold stripWs
  intro c hc
  rw [List.mem_reverse] at hc
  have h1 := (List.dropWhile_suffix (l := (cs.dropWhile isPySpace).reverse)
    isPySpace).sublist.subset hc
  rw [List.mem_reverse] at h1
  exact (List.dropWhile_suffix isPySpace).sublist.subset h1

lemma altUser_suffix {cs r : List Char} (h : altUser cs = some r) : r <:+ cs := by
  unfold altUser at h
  split at h
  · exact Option.noConfusion h
  · split at h
    · rw [Option.some.injEq] at h
      rw [← h]
      exact (List.tail_suffix _).trans (List.dropWhile_suffix _)
    · exact Option.noConfusion h

lemma altHandle_suffix {cs r : List Char} (h : altHandle cs = some r) : r <:+ cs := by
  unfold altHandle at h
  split at h
  · split at h
    · exact Option.noConfusion h
    · split at h
      · rw [Option.some.injEq] at h
        rw [← h]
        exact ((List.tail_suffix _).trans
          ((List.dropWhile_suffix _).trans
            ((List.dropWhile_suffix _).trans (List.tail_suffix _))))
      · exact Option.noConfusion h
  · exact Option.noConfusion h

lemma altMarkers_suffix {cs r : List Char} (h : altMarkers cs = some r) : r <:+ cs := by
  unfold altMarkers at h
  split at h
  · exact Option.noConfusion h
  · rw [Option.some.injEq] at h
    rw [← h]
    exact (List.dropWhile_suffix _).trans (List.dropWhile_suffix _)

lemma reSubToken_suffix (cs : List Char) : reSubToken cs <:+ cs := by
  unfold reSubToken
  have hrest : cs.dropWhile isPySpace <:+ cs := List.dropWhile_suffix _
  cases h1 : altUser (cs.dropWhile isPySpace) with
  | some r => exact (altUser_suffix h1).trans hrest
  | none =>
    cases h2 : altHandle (cs.dropWhile isPySpace) with
    | some r => exact (altHandle_suffix h2).trans hrest
    | none =>
      cases h3 : altMarkers (cs.dropWhile isPySpace) with
      | some r => exact (altMarkers_suffix h3).trans hrest
      | none => exact List.suffix_refl cs

lemma wordChar_not_space {c : Char} (h : isWordChar c = true) :
    isPySpace c = false := by
  by_contra hc
  have hs : isPySpace c = true := by
    cases hx : isPySpace c
    · exact absurd hx hc
    · rfl
  unfold isPySpace at hs
  simp only [Bool.or_eq_true, decide_eq_true_eq] at hs
  rcases hs with ((((rfl | rfl) | rfl) | rfl) | rfl) | rfl <;>
    exact absurd h (by decide)

/-! ### C7 and C8: the text cleaner -/

/-- C7: `clean_text_line` is total — it is a Lean function defined on
every `PyVal`; on strings it runs the cleaning transform, and on every
non-string input it returns the empty string. -/
theorem clean_text_line_total :
    (∀ s : String, clean_text_line (.vstr s) = cleanStr s) ∧
    (∀ v : PyVal, (∀ s, v ≠ .vstr s) → clean_text_line v = "") := by
  constructor
  · intro s; rfl
  · intro v hv
    cases v with
    | vint n => rfl
    | vfloat q => rfl
    | vstr s => exact absurd rfl (hv s)
    | vnone => rfl

theorem clean_text_line_total_witness : clean_text_line .vnone = "" :=
  clean_text_line_total.2 .vnone (fun _ h => PyVal.noConfusion h)

/-- C8 counterexample: the anchored regex performs a single
substitution, so list markers that follow a stripped username token
survive; and `「」` are stripped after the whitespace trim, so
whitespace that was inside the quotes survives at the ends. -/
theorem clean_text_line_single_sub_cex :
    clean_text_line (.vstr "user: - hello") = "- hello" ∧
    clean_text_line (.vstr "「 x 」") = " x " := by
  constructor <;> rfl

/-- C8 (amended): `clean_text_line` strips at most one leading token —
a `word:` username token (markers after it are kept), an `@handle:`
token, or a whitespace/marker run — then trims whitespace and only
afterwards the `「」` quote characters; on quote-free input the result
has no leading or trailing whitespace. -/
theorem clean_text_line_amended :
    (∀ (w r : List Char), w ≠ [] → (∀ c ∈ w, isWordChar c = true) →
      cleanStr (String.mk (w ++ ':' :: r)) = String.mk (stripQuotes (stripWs r))) ∧
    (∀ s : String, (∀ c ∈ s.data, isCornerQuote c = false) →
      (cleanStr s).data.takeWhile isPySpace = [] ∧
      (cleanStr s).data.reverse.takeWhile isPySpace = []) := by
  constructor
  · intro w r hw hall
    have hsub : reSubToken (w ++ ':' :: r) = r := by
      obtain ⟨a, w', rfl⟩ : ∃ a w', w = a :: w' := by
        cases w with
        | nil => exact absurd rfl hw
        | cons a w' => exact ⟨a, w', rfl⟩
      have ha : isWordChar a = true := hall a (List.mem_cons_self _ _)
      have hdropWs : ((a :: w' ++ ':' :: r).dropWhile isPySpace) = a :: w' ++ ':' :: r := by
        rw [List.cons_append, List.dropWhile_cons]
        rw [if_neg (by rw [wordChar_not_space ha]; exact Bool.false_ne_true)]
      have hdw : (a :: w' ++ ':' :: r).dropWhile isWordChar = ':' :: r := by
        have hnil : (a :: w').dropWhile isWordChar = [] := by
          rw [List.dropWhile_eq_nil_iff]
          intro x hx
          exact hall x hx
        rw [List.dropWhile_append, hnil]
        simp only [List.isEmpty_nil, if_pos]
        rw [List.dropWhile_cons, if_neg (by decide)]
      have htw : (a :: w' ++ ':' :: r).takeWhile isWordChar ≠ [] := by
        rw [List.cons_append, List.takeWhile_cons, if_pos ha]
        exact List.cons_ne_nil _ _
      unfold reSubToken
      rw [hdropWs]
      unfold altUser
      rw [if_neg htw, hdw]
      simp
    unfold cleanStr
    rw [show (String.mk (w ++ ':' :: r)).data = w ++ ':' :: r from rfl, hsub]
  · intro s hq
    have hclean : (cleanStr s).data = stripWs (reSubToken s.data) := by
      unfold cleanStr
      rw [stripQuotes_eq_self]
      intro c hc
      have hmem : c ∈ s.data :=
        (reSubToken_suffix s.data).sublist.subset (stripWs_subset _ hc)
      rw [hq c hmem]
      exact Bool.false_ne_true
    rw [hclean]
    exact ⟨stripWs_no_leading _, stripWs_no_trailing _⟩

theorem clean_text_line_amended_witness : cleanStr "u: h" = "h" := by
  have h := clean_text_line_amended.1 ['u'] [' ', 'h'] (by decide) (by decide)
  have he : String.mk (['u'] ++ ':' :: [' ', 'h']) = "u: h" := by decide
  have he2 : String.mk (stripQuotes (stripWs [' ', 'h'])) = "h" := by decide
  rw [he, he2] at h
  exact h

/-! ### C5 and C6: the timeline content store -/

lemma sampleSpec_take : SampleSpec (fun data k => data.take k) := by
  intro data k hk
  refine ⟨?_, (List.take_sublist _ _).subperm⟩
  rw [List.length_take]
  omega

/-- C5: for a non-empty warm-up pool, `get_posts(condition, warmup)`
returns `min(50, pool size)` items drawn from the pool without
replacement (a sub-permutation of the pool), and the result does not
depend on the `condition` argument. -/
theorem get_posts_warmup_sample (samp : List Post → Nat → List Post)
    (hsamp : SampleSpec samp) (ds : DataStore) (condition : String)
    (hne : ds.warmup ≠ []) :
    (get_posts samp ds condition "warmup").length = min 50 ds.warmup.length ∧
    List.Subperm (get_posts samp ds condition "warmup") ds.warmup ∧
    ∀ c2 : String, get_posts samp ds c2 "warmup" = get_posts samp ds condition "warmup" := by
  have heval : ∀ c : String, get_posts samp ds c "warmup" =
      samp ds.warmup (min ds.warmup.length 50) := by
    intro c
    unfold get_posts
    rw [if_pos rfl, if_neg hne]
  obtain ⟨hlen, hsub⟩ :=
    hsamp ds.warmup (min ds.warmup.length 50) (Nat.min_le_left _ _)
  refine ⟨?_, ?_, ?_⟩
  · rw [heval, hlen, Nat.min_comm]
  · rw [heval]; exact hsub
  · intro c2; rw [heval, heval]

theorem get_posts_warmup_sample_witness :
    (get_posts (fun d k => d.take k)
      (mkDataStore [⟨"a"⟩] [] [] [] [] [] [] [] [] []) "weak" "warmup").length =
      min 50 (mkDataStore [⟨"a"⟩] [] [] [] [] [] [] [] [] []).warmup.length :=
  (get_posts_warmup_sample (fun d k => d.take k) sampleSpec_take
    (mkDataStore [⟨"a"⟩] [] [] [] [] [] [] [] [] []) "weak" (by decide)).1

/-- C6: for known conditions and the three time-window phases,
`get_posts` returns the loaded sequence itself, in order, independent
of the sampling source (hence deterministic and repeatable); unknown
conditions, unknown phases and phases absent from a condition table
yield `[]`. -/
theorem get_posts_fixed_phases (samp : List Post → Nat → List Post)
    (w w05 w510 w1015 m05 m510 m1015 s05 s510 s1015 : List Post) :
    (get_posts samp (mkDataStore w w05 w510 w1015 m05 m510 m1015 s05 s510 s1015) "weak" "0-5" = w05 ∧
     get_posts samp (mkDataStore w w05 w510 w1015 m05 m510 m1015 s05 s510 s1015) "weak" "5-10" = w510 ∧
     get_posts samp (mkDataStore w w05 w510 w1015 m05 m510 m1015 s05 s510 s1015) "weak" "10-15" = w1015 ∧
     get_posts samp (mkDataStore w w05 w510 w1015 m05 m510 m1015 s05 s510 s1015) "mid" "0-5" = m05 ∧
     get_posts samp (mkDataStore w w05 w510 w1015 m05 m510 m1015 s05 s510 s1015) "mid" "5-10" = m510 ∧
     get_posts samp (mkDataStore w w05 w510 w1015 m05 m510 m1015 s05 s510 s1015) "mid" "10-15" = m1015 ∧
     get_posts samp (mkDataStore w w05 w510 w1015 m05 m510 m1015 s05 s510 s1015) "strong" "0-5" = s05 ∧
     get_posts samp (mkDataStore w w05 w510 w1015 m05 m510 m1015 s05 s510 s1015) "strong" "5-10" = s510 ∧
     get_posts samp (mkDataStore w w05 w510 w1015 m05 m510 m1015 s05 s510 s1015) "strong" "10-15" = s1015) ∧
    (∀ (ds : DataStore) (c p : String), p ≠ "warmup" →
      ¬(c = "warmup" ∨ c = "weak" ∨ c = "mid" ∨ c = "strong") →
      get_posts samp ds c p = []) ∧
    (∀ (c p : String),
      ¬(p = "warmup" ∨ p = "0-5" ∨ p = "5-10" ∨ p = "10-15") →
      get_posts samp (mkDataStore w w05 w510 w1015 m05 m510 m1015 s05 s510 s1015) c p = []) ∧
    (∀ (ds : DataStore) (c p : String) (t : List (String × List Post)),
      p ≠ "warmup" → (storeEntries ds).lookup c = some (.table t) →
      t.lookup p = none → get_posts samp ds c p = []) ∧
    (∀ (samp2 : List Post → Nat → List Post) (ds : DataStore) (c p : String),
      p ≠ "warmup" → get_posts samp ds c p = get_posts samp2 ds c p) := by
  refine ⟨⟨rfl, rfl, rfl, rfl, rfl, rfl, rfl, rfl, rfl⟩, ?_, ?_, ?_, ?_⟩
  · intro ds c p hp hc
    push_neg at hc
    obtain ⟨h1, h2, h3, h4⟩ := hc
    unfold get_posts
    rw [if_neg hp]
    simp [storeEntries, List.lookup, beq_eq_false_iff_ne.mpr h1,
      beq_eq_false_iff_ne.mpr h2, beq_eq_false_iff_ne.mpr h3,
      beq_eq_false_iff_ne.mpr h4]
  · intro c p hp
    push_neg at hp
    obtain ⟨hp1, hp2, hp3, hp4⟩ := hp
    have bp2 := beq_eq_false_iff_ne.mpr hp2
    have bp3 := beq_eq_false_iff_ne.mpr hp3
    have bp4 := beq_eq_false_iff_ne.mpr hp4
    unfold get_posts
    rw [if_neg hp1]
    by_cases h1 : c = "warmup"
    · subst h1
      simp [storeEntries, mkDataStore, List.lookup]
    · by_cases h2 : c = "weak"
      · subst h2
        simp [storeEntries, mkDataStore, mkCondTable, List.lookup, bp2, bp3, bp4]
      · by_cases h3 : c = "mid"
        · subst h3
          simp [storeEntries, mkDataStore, mkCondTable, List.lookup, bp2, bp3, bp4]
        · by_cases h4 : c = "strong"
          · subst h4
            simp [storeEntries, mkDataStore, mkCondTable, List.lookup, bp2, bp3, bp4]
          · simp [storeEntries, List.lookup, beq_eq_false_iff_ne.mpr h1,
              beq_eq_false_iff_ne.mpr h2, beq_eq_false_iff_ne.mpr h3,
              beq_eq_false_iff_ne.mpr h4]
  · intro ds c p t hp hlook hnone
    unfold get_posts
    rw [if_neg hp]
    simp [hlook, hnone]
  · intro samp2 ds c p hp
    unfold get_posts
    rw [if_neg hp, if_neg hp]

theorem get_posts_fixed_phases_witness :
    get_posts (fun d k => d.take k)
      (mkDataStore [] [] [] [] [] [] [] [] [] []) "foo" "0-5" = [] :=
  ((get_posts_fixed_phases (fun d k => d.take k)
      [] [] [] [] [] [] [] [] [] []).2.1)
    (mkDataStore [] [] [] [] [] [] [] [] [] []) "foo" "0-5"
    (by decide) (by decide)

/-! ### C9: the schema resolver -/

/-- C9: the phase→column mapping always contains all five logical
phases; an unconfigured client, an unreachable store or an empty probe
row leave the canonical default map unchanged; and for a live probe row
each phase resolves to the canonical name first, then the first
matching alternate spelling, then the canonical default. -/
theorem get_phase_to_column_mapping_spec :
    (∀ probe : Probe, (get_phase_to_column_mapping probe).map Prod.fst =
      ["pre", "warmup", "0-5", "5-10", "10-15"]) ∧
    (get_phase_to_column_mapping .unconfigured = defaultPhaseMap ∧
     get_phase_to_column_mapping .unreachable = defaultPhaseMap ∧
     get_phase_to_column_mapping (.row []) = defaultPhaseMap) ∧
    (∀ (cols : List String) (p : String),
      p ∈ (["pre", "warmup", "0-5", "5-10", "10-15"] : List String) →
      (get_phase_to_column_mapping (.row cols)).lookup p =
        some (if cols = [] then canonicalOf p
              else ((canonicalOf p :: altsOf p).find?
                      (fun cand => cols.contains cand)).getD (canonicalOf p))) := by
  refine ⟨?_, ⟨rfl, rfl, rfl⟩, ?_⟩
  · intro probe
    cases probe with
    | unconfigured => rfl
    | unreachable => rfl
    | row cols =>
      by_cases hc : cols = []
      · subst hc; rfl
      · simp [get_phase_to_column_mapping, hc]
  · intro cols p hp
    simp only [List.mem_cons, List.not_mem_nil, or_false] at hp
    rcases hp with rfl | rfl | rfl | rfl | rfl <;>
      by_cases hc : cols = [] <;>
      simp [get_phase_to_column_mapping, defaultPhaseMap, canonicalOf, altsOf,
        pickColumn, warmupCands, phase1Cands, phase2Cands, phase3Cands,
        List.lookup, hc]
    all_goals by_cases hm : "vas_pre" ∈ cols
    all_goals simp [hm]

theorem get_phase_to_column_mapping_spec_witness :
    (get_phase_to_column_mapping (.row ["vas_war"])).lookup "warmup" =
      some "vas_war" := by
  have h := get_phase_to_column_mapping_spec.2.2 ["vas_war"] "warmup" (by decide)
  rw [h]
  decide

/-! ### Ledger support lemmas -/

lemma lookup_setField (fs : List (String × Int)) (k : String) (v : Int) :
    (setField fs k v).lookup k = some v := by
  induction fs with
  | nil => simp [setField, List.lookup]
  | cons a t ih =>
    unfold setField at ih ⊢
    by_cases hak : a.1 = k
    · rw [if_pos (by simp [List.any_cons, hak])]
      have hbeq : (k == a.1) = true := beq_iff_eq.mpr hak.symm
      simp only [List.map_cons]
      rw [if_pos hak]
      simp [List.lookup, hbeq]
    · have hk : (k == a.1) = false := beq_eq_false_iff_ne.mpr (fun h => hak h.symm)
      by_cases ht : (t.any fun p => decide (p.1 = k)) = true
      · rw [if_pos (by simp [List.any_cons, hak, ht])]
        rw [if_pos ht] at ih
        simp only [List.map_cons]
        rw [if_neg hak]
        simp only [List.lookup, hk]
        exact ih
      · have ht' := Bool.eq_false_iff.mpr ht
        rw [if_neg (by simp [List.any_cons, hak, ht'])]
        rw [if_neg ht] at ih
        simp only [List.cons_append, List.lookup, hk]
        exact ih

/-- The fold underlying `latestRecord`. -/
def latestStep (acc : Option VasRecord) (r : VasRecord) : Option VasRecord :=
  match acc with
  | none => some r
  | some a => some (if a.id < r.id then r else a)

lemma latestRecord_eq_foldl (db : List VasRecord) (uid cond : String) :
    latestRecord db uid cond =
      (db.filter (fun r => r.participant_name = uid && r.filter_condition = cond)).foldl
        latestStep none := rfl

lemma foldl_latestStep_mem (l : List VasRecord) :
    ∀ (acc : Option VasRecord) (x : VasRecord),
      l.foldl latestStep acc = some x → acc = some x ∨ x ∈ l := by
  induction l with
  | nil => intro acc x h; exact Or.inl h
  | cons r t ih =>
    intro acc x h
    rcases ih (latestStep acc r) x h with hstep | hmem
    · cases acc with
      | none =>
        simp only [latestStep, Option.some.injEq] at hstep
        exact Or.inr (hstep ▸ List.mem_cons_self r t)
      | some a =>
        simp only [latestStep, Option.some.injEq] at hstep
        by_cases hlt2 : a.id < r.id
        · rw [if_pos hlt2] at hstep
          exact Or.inr (hstep ▸ List.mem_cons_self r t)
        · rw [if_neg hlt2] at hstep
          exact Or.inl (congrArg some hstep)
    · exact Or.inr (List.mem_cons_of_mem r hmem)

lemma latestRecord_mem {db : List VasRecord} {uid cond : String} {l : VasRecord}
    (h : latestRecord db uid cond = some l) : l ∈ db := by
  rw [latestRecord_eq_foldl] at h
  rcases foldl_latestStep_mem _ none l h with hacc | hmem
  · exact Option.noConfusion hacc
  · exact (List.mem_filter.mp hmem).1

/-! ### Branch-evaluation lemmas for `save_vas` -/

lemma save_vas_insert_none_eq (probe : Probe) (db : List VasRecord) (u c : String)
    (score : PyVal) (v : Int) (col : String)
    (hu : u ≠ "") (hc : c = "weak" ∨ c = "mid" ∨ c = "strong")
    (hprobe : probe ≠ .unconfigured)
    (hcol : (get_phase_to_column_mapping probe).lookup "pre" = some col)
    (hchk : columnCheck probe col = true)
    (hv : pyIntOf score = some v)
    (hnone : latestRecord db u c = none) :
    save_vas probe db (some u) (some c) (some "pre") score =
      (.ok "Created new record" col v, db ++ [insertedRecord db u c col v]) := by
  have hscore : score ≠ .vnone := fun h => by rw [h] at hv; exact Option.noConfusion hv
  rcases hc with rfl | rfl | rfl <;>
    simp [save_vas, hu, hprobe, hcol, hchk, hv, hnone, hscore]

lemma save_vas_reject_none_eq (probe : Probe) (db : List VasRecord) (u c p : String)
    (score : PyVal) (col : String)
    (hu : u ≠ "") (hc : c = "weak" ∨ c = "mid" ∨ c = "strong")
    (hp : p = "pre" ∨ p = "warmup" ∨ p = "0-5" ∨ p = "5-10" ∨ p = "10-15")
    (hne : p ≠ "pre")
    (hprobe : probe ≠ .unconfigured)
    (hcol : (get_phase_to_column_mapping probe).lookup p = some col)
    (hchk : columnCheck probe col = true)
    (hscore : score ≠ .vnone)
    (hnone : latestRecord db u c = none) :
    save_vas probe db (some u) (some c) (some p) score =
      (.badRequest "No existing record found. Please start with pre phase.", db) := by
  rcases hp with rfl | rfl | rfl | rfl | rfl
  · exact absurd rfl hne
  all_goals rcases hc with rfl | rfl | rfl <;>
    simp [save_vas, hu, hprobe, hcol, hchk, hscore, hnone]

lemma save_vas_update_eq (probe : Probe) (db : List VasRecord) (u c p : String)
    (score : PyVal) (v : Int) (col : String) (latest : VasRecord)
    (hu : u ≠ "") (hc : c = "weak" ∨ c = "mid" ∨ c = "strong")
    (hp : p = "pre" ∨ p = "warmup" ∨ p = "0-5" ∨ p = "5-10" ∨ p = "10-15")
    (hprobe : probe ≠ .unconfigured)
    (hcol : (get_phase_to_column_mapping probe).lookup p = some col)
    (hchk : columnCheck probe col = true)
    (hv : pyIntOf score = some v)
    (hlatest : latestRecord db u c = some latest)
    (hst : latest.status ≠ some "completed") :
    save_vas probe db (some u) (some c) (some p) score =
      (.ok ("Updated record " ++ toString latest.id) col v,
       db.map (fun r =>
         if r.id = latest.id then
           { r with fields := setField r.fields col v,
                    status := if p = "10-15" then some "completed" else r.status }
         else r)) := by
  have hscore : score ≠ .vnone := fun h => by rw [h] at hv; exact Option.noConfusion hv
  rcases hp with rfl | rfl | rfl | rfl | rfl <;>
    rcases hc with rfl | rfl | rfl <;>
    simp [save_vas, hu, hprobe, hcol, hchk, hv, hscore, hlatest, hst]

lemma save_vas_insert_completed_eq (probe : Probe) (db : List VasRecord) (u c : String)
    (score : PyVal) (v : Int) (col : String) (latest : VasRecord)
    (hu : u ≠ "") (hc : c = "weak" ∨ c = "mid" ∨ c = "strong")
    (hprobe : probe ≠ .unconfigured)
    (hcol : (get_phase_to_column_mapping probe).lookup "pre" = some col)
    (hchk : columnCheck probe col = true)
    (hv : pyIntOf score = some v)
    (hlatest : latestRecord db u c = some latest)
    (hst : latest.status = some "completed") :
    save_vas probe db (some u) (some c) (some "pre") score =
      (.ok "Created new record" col v, db ++ [insertedRecord db u c col v]) := by
  have hscore : score ≠ .vnone := fun h => by rw [h] at hv; exact Option.noConfusion hv
  rcases hc with rfl | rfl | rfl <;>
    simp [save_vas, hu, hprobe, hcol, hchk, hv, hscore, hlatest, hst]

lemma save_vas_reject_completed_eq (probe : Probe) (db : List VasRecord) (u c p : String)
    (score : PyVal) (col : String) (latest : VasRecord)
    (hu : u ≠ "") (hc : c = "weak" ∨ c = "mid" ∨ c = "strong")
    (hp : p = "pre" ∨ p = "warmup" ∨ p = "0-5" ∨ p = "5-10" ∨ p = "10-15")
    (hne : p ≠ "pre")
    (hprobe : probe ≠ .unconfigured)
    (hcol : (get_phase_to_column_mapping probe).lookup p = some col)
    (hchk : columnCheck probe col = true)
    (hscore : score ≠ .vnone)
    (hlatest : latestRecord db u c = some latest)
    (hst : latest.status = some "completed") :
    save_vas probe db (some u) (some c) (some p) score =
      (.badRequest "Previous experiment is completed. Please start with pre phase.", db) := by
  rcases hp with rfl | rfl | rfl | rfl | rfl
  · exact absurd rfl hne
  all_goals rcases hc with rfl | rfl | rfl <;>
    simp [save_vas, hu, hprobe, hcol, hchk, hscore, hlatest, hst]

lemma save_vas_int_fail_eq (probe : Probe) (db : List VasRecord) (u c p : String)
    (score : PyVal) (col : String)
    (hu : u ≠ "") (hc : c = "weak" ∨ c = "mid" ∨ c = "strong")
    (hp : p = "pre" ∨ p = "warmup" ∨ p = "0-5" ∨ p = "5-10" ∨ p = "10-15")
    (hprobe : probe ≠ .unconfigured)
    (hcol : (get_phase_to_column_mapping probe).lookup p = some col)
    (hchk : columnCheck probe col = true)
    (hbad : pyIntOf score = none) (hscore : score ≠ .vnone)
    (reachNone : latestRecord db u c = none → p = "pre")
    (reachSome : ∀ l, latestRecord db u c = some l →
      l.status ≠ some "completed" ∨ p = "pre") :
    save_vas probe db (some u) (some c) (some p) score =
      (.serverError "int conversion failed", db) := by
  cases hlat : latestRecord db u c with
  | none =>
    have hpre := reachNone hlat
    subst hpre
    rcases hc with rfl | rfl | rfl <;>
      simp [save_vas, hu, hprobe, hcol, hchk, hbad, hscore, hlat]
  | some l =>
    by_cases hst : l.status = some "completed"
    · rcases reachSome l hlat with hst2 | hpre
      · exact absurd hst hst2
      · subst hpre
        rcases hc with rfl | rfl | rfl <;>
          simp [save_vas, hu, hprobe, hcol, hchk, hbad, hscore, hlat, hst]
    · rcases hp with rfl | rfl | rfl | rfl | rfl <;>
        rcases hc with rfl | rfl | rfl <;>
        simp [save_vas, hu, hprobe, hcol, hchk, hbad, hscore, hlat, hst]

/-! ### C1, C2, C3, C4, C10: the score ledger -/

/-- C1: with no record for the (participant, condition) pair, only
phase `pre` succeeds — inserting a fresh record with status
`in_progress` and the score in the resolved column — while any other
phase fails with the SequenceError 400 and inserts nothing. -/
theorem save_vas_no_record (probe : Probe) (db : List VasRecord) (u c p : String)
    (score : PyVal) (v : Int) (col : String)
    (hu : u ≠ "") (hc : c = "weak" ∨ c = "mid" ∨ c = "strong")
    (hp : p = "pre" ∨ p = "warmup" ∨ p = "0-5" ∨ p = "5-10" ∨ p = "10-15")
    (hprobe : probe ≠ .unconfigured)
    (hcol : (get_phase_to_column_mapping probe).lookup p = some col)
    (hchk : columnCheck probe col = true)
    (hv : pyIntOf score = some v)
    (hnone : latestRecord db u c = none) :
    (p = "pre" →
      save_vas probe db (some u) (some c) (some p) score =
        (.ok "Created new record" col v, db ++ [insertedRecord db u c col v]) ∧
      (insertedRecord db u c col v).status = some "in_progress" ∧
      (insertedRecord db u c col v).fields.lookup col = some v) ∧
    (p ≠ "pre" →
      save_vas probe db (some u) (some c) (some p) score =
        (.badRequest "No existing record found. Please start with pre phase.", db)) := by
  constructor
  · intro hpre
    subst hpre
    exact ⟨save_vas_insert_none_eq probe db u c score v col hu hc hprobe hcol hchk hv hnone,
      rfl, by simp [insertedRecord, List.lookup]⟩
  · intro hne
    exact save_vas_reject_none_eq probe db u c p score col hu hc hp hne hprobe hcol hchk
      (fun h => by rw [h] at hv; exact Option.noConfusion hv) hnone

theorem save_vas_no_record_witness :
    save_vas (.row []) [] (some "p1") (some "weak") (some "pre") (.vint 3) =
      (.ok "Created new record" "vas_pre" 3, [insertedRecord [] "p1" "weak" "vas_pre" 3]) := by
  have h := (save_vas_no_record (.row []) [] "p1" "weak" "pre" (.vint 3) 3 "vas_pre"
    (by decide) (Or.inl rfl) (Or.inl rfl) (by decide) rfl rfl rfl rfl).1 rfl
  simpa using h.1

/-- C2: with a latest record that is not completed, the submission
updates that record in place (keyed by its id, never an insert): the
resolved column gets the score; phase `10-15` additionally sets status
`completed`, and every other phase leaves the status unchanged. -/
theorem save_vas_update_in_place (probe : Probe) (db : List VasRecord) (u c p : String)
    (score : PyVal) (v : Int) (col : String) (latest : VasRecord)
    (hu : u ≠ "") (hc : c = "weak" ∨ c = "mid" ∨ c = "strong")
    (hp : p = "pre" ∨ p = "warmup" ∨ p = "0-5" ∨ p = "5-10" ∨ p = "10-15")
    (hprobe : probe ≠ .unconfigured)
    (hcol : (get_phase_to_column_mapping probe).lookup p = some col)
    (hchk : columnCheck probe col = true)
    (hv : pyIntOf score = some v)
    (hlatest : latestRecord db u c = some latest)
    (hst : latest.status ≠ some "completed") :
    save_vas probe db (some u) (some c) (some p) score =
      (.ok ("Updated record " ++ toString latest.id) col v,
       db.map (fun r =>
         if r.id = latest.id then
           { r with fields := setField r.fields col v,
                    status := if p = "10-15" then some "completed" else r.status }
         else r)) ∧
    (save_vas probe db (some u) (some c) (some p) score).2.length = db.length ∧
    (∀ r ∈ db, r.id ≠ latest.id →
      r ∈ (save_vas probe db (some u) (some c) (some p) score).2) := by
  have heq := save_vas_update_eq probe db u c p score v col latest
    hu hc hp hprobe hcol hchk hv hlatest hst
  refine ⟨heq, ?_, ?_⟩
  · rw [heq]
    exact List.length_map _ _
  · intro r hr hne
    rw [heq]
    have hfr : (fun rr : VasRecord =>
        if rr.id = latest.id then
          { rr with fields := setField rr.fields col v,
                    status := if p = "10-15" then some "completed" else rr.status }
        else rr) r = r := if_neg hne
    exact hfr ▸ List.mem_map_of_mem _ hr

theorem save_vas_update_in_place_witness :
    save_vas (.row []) [⟨1, "p1", "weak", some "in_progress", [("vas_pre", 3)]⟩]
      (some "p1") (some "weak") (some "0-5") (.vint 5) =
      (.ok "Updated record 1" "vas_phase1" 5,
       [⟨1, "p1", "weak", some "in_progress", [("vas_pre", 3), ("vas_phase1", 5)]⟩]) := by
  have h := (save_vas_update_in_place (.row [])
    [⟨1, "p1", "weak", some "in_progress", [("vas_pre", 3)]⟩]
    "p1" "weak" "0-5" (.vint 5) 5 "vas_phase1"
    ⟨1, "p1", "weak", some "in_progress", [("vas_pre", 3)]⟩
    (by decide) (Or.inl rfl) (Or.inr (Or.inr (Or.inl rfl))) (by decide)
    rfl rfl rfl rfl (by decide)).1
  rw [h]
  decide

/-- C3: with a completed latest record, phase `pre` starts a fresh
record (insert, status `in_progress`) and leaves every existing record
— the completed one included — untouched; any other phase fails with
the SequenceError 400 and writes nothing. -/
theorem save_vas_completed_record (probe : Probe) (db : List VasRecord) (u c p : String)
    (score : PyVal) (v : Int) (col : String) (latest : VasRecord)
    (hu : u ≠ "") (hc : c = "weak" ∨ c = "mid" ∨ c = "strong")
    (hp : p = "pre" ∨ p = "warmup" ∨ p = "0-5" ∨ p = "5-10" ∨ p = "10-15")
    (hprobe : probe ≠ .unconfigured)
    (hcol : (get_phase_to_column_mapping probe).lookup p = some col)
    (hchk : columnCheck probe col = true)
    (hv : pyIntOf score = some v)
    (hlatest : latestRecord db u c = some latest)
    (hst : latest.status = some "completed") :
    (p = "pre" →
      save_vas probe db (some u) (some c) (some p) score =
        (.ok "Created new record" col v, db ++ [insertedRecord db u c col v]) ∧
      (insertedRecord db u c col v).status = some "in_progress" ∧
      (∀ r ∈ db, r ∈ (save_vas probe db (some u) (some c) (some p) score).2)) ∧
    (p ≠ "pre" →
      save_vas probe db (some u) (some c) (some p) score =
        (.badRequest "Previous experiment is completed. Please start with pre phase.", db)) := by
  constructor
  · intro hpre
    subst hpre
    have heq := save_vas_insert_completed_eq probe db u c score v col latest
      hu hc hprobe hcol hchk hv hlatest hst
    refine ⟨heq, rfl, ?_⟩
    intro r hr
    rw [heq]
    exact List.mem_append_left _ hr
  · intro hne
    exact save_vas_reject_completed_eq probe db u c p score col latest hu hc hp hne
      hprobe hcol hchk (fun h => by rw [h] at hv; exact Option.noConfusion hv)
      hlatest hst

theorem save_vas_completed_record_witness :
    save_vas (.row []) [⟨1, "p1", "weak", some "completed", [("vas_phase3", 7)]⟩]
      (some "p1") (some "weak") (some "10-15") (.vint 7) =
      (.badRequest "Previous experiment is completed. Please start with pre phase.",
       [⟨1, "p1", "weak", some "completed", [("vas_phase3", 7)]⟩]) :=
  (save_vas_completed_record (.row [])
    [⟨1, "p1", "weak", some "completed", [("vas_phase3", 7)]⟩]
    "p1" "weak" "10-15" (.vint 7) 7 "vas_phase3"
    ⟨1, "p1", "weak", some "completed", [("vas_phase3", 7)]⟩
    (by decide) (Or.inl rfl) (Or.inr (Or.inr (Or.inr (Or.inr rfl))))
    (by decide) rfl rfl rfl rfl rfl).2 (by decide)

/-- C4 counterexample: the state-machine summary defines no `pre`
transition out of `in_progress`, yet a `pre` submission against an
in-progress record is accepted as an update (HTTP 200), not rejected. -/
theorem save_vas_pre_in_progress_accepted_cex :
    save_vas (.row []) [⟨1, "p1", "weak", some "in_progress", [("vas_pre", 3)]⟩]
      (some "p1") (some "weak") (some "pre") (.vint 4) =
      (.ok "Updated record 1" "vas_pre" 4,
       [⟨1, "p1", "weak", some "in_progress", [("vas_pre", 4)]⟩]) := by
  decide

/-- C4 (amended): requests with no defined transition are rejected in
the no-record and completed states (phase ≠ `pre`), but from an
in-progress record every valid phase — a repeated `pre` included — is
accepted as an in-place update of the latest record, never rejected. -/
theorem save_vas_in_progress_accepts_all_phases (probe : Probe) (db : List VasRecord)
    (u c p : String) (score : PyVal) (v : Int) (col : String) (latest : VasRecord)
    (hu : u ≠ "") (hc : c = "weak" ∨ c = "mid" ∨ c = "strong")
    (hp : p = "pre" ∨ p = "warmup" ∨ p = "0-5" ∨ p = "5-10" ∨ p = "10-15")
    (hprobe : probe ≠ .unconfigured)
    (hcol : (get_phase_to_column_mapping probe).lookup p = some col)
    (hchk : columnCheck probe col = true)
    (hv : pyIntOf score = some v)
    (hlatest : latestRecord db u c = some latest)
    (hst : latest.status ≠ some "completed") :
    (save_vas probe db (some u) (some c) (some p) score).1 =
      .ok ("Updated record " ++ toString latest.id) col v ∧
    (save_vas probe db (some u) (some c) (some p) score).2.length = db.length := by
  have heq := save_vas_update_eq probe db u c p score v col latest
    hu hc hp hprobe hcol hchk hv hlatest hst
  rw [heq]
  exact ⟨rfl, List.length_map _ _⟩

theorem save_vas_in_progress_accepts_all_phases_witness :
    (save_vas (.row []) [⟨1, "p1", "weak", some "in_progress", [("vas_pre", 3)]⟩]
      (some "p1") (some "weak") (some "pre") (.vint 4)).1 =
      .ok "Updated record 1" "vas_pre" 4 := by
  have h := (save_vas_in_progress_accepts_all_phases (.row [])
    [⟨1, "p1", "weak", some "in_progress", [("vas_pre", 3)]⟩]
    "p1" "weak" "pre" (.vint 4) 4 "vas_pre"
    ⟨1, "p1", "weak", some "in_progress", [("vas_pre", 3)]⟩
    (by decide) (Or.inl rfl) (Or.inl rfl) (by decide)
    rfl rfl rfl rfl (by decide)).1
  rw [h]
  decide

/-- C10: every accepted submission echoes and stores `int(vas_score)` —
on a fractional score its truncation toward zero — in the resolved
column; a present but unconvertible score takes the exception path
(HTTP 500, store unchanged), not a 400 validation error. -/
theorem save_vas_int_conversion (probe : Probe) (db : List VasRecord) (u c p : String)
    (score : PyVal) (col : String)
    (hu : u ≠ "") (hc : c = "weak" ∨ c = "mid" ∨ c = "strong")
    (hp : p = "pre" ∨ p = "warmup" ∨ p = "0-5" ∨ p = "5-10" ∨ p = "10-15")
    (hprobe : probe ≠ .unconfigured)
    (hcol : (get_phase_to_column_mapping probe).lookup p = some col)
    (hchk : columnCheck probe col = true) :
    (∀ v : Int, pyIntOf score = some v →
      ∀ (msg col2 : String) (cval : Int) (dbr : List VasRecord),
        save_vas probe db (some u) (some c) (some p) score = (.ok msg col2 cval, dbr) →
        col2 = col ∧ cval = v ∧ ∃ r ∈ dbr, r.fields.lookup col = some v) ∧
    (pyIntOf score = none → score ≠ .vnone →
      (latestRecord db u c = none → p = "pre") →
      (∀ l, latestRecord db u c = some l → l.status ≠ some "completed" ∨ p = "pre") →
      save_vas probe db (some u) (some c) (some p) score =
        (.serverError "int conversion failed", db)) ∧
    (∀ q : Rat, pyIntOf (.vfloat q) = some (pytrunc q)) := by
  refine ⟨?_, ?_, fun q => rfl⟩
  · intro v hv msg col2 cval dbr hsave
    cases hlat : latestRecord db u c with
    | none =>
      by_cases hpre : p = "pre"
      · subst hpre
        rw [save_vas_insert_none_eq probe db u c score v col
          hu hc hprobe hcol hchk hv hlat] at hsave
        rw [Prod.mk.injEq, VasOutcome.ok.injEq] at hsave
        obtain ⟨⟨hmsg, hcol2, hval⟩, hdb⟩ := hsave
        refine ⟨hcol2.symm, hval.symm, insertedRecord db u c col v, ?_, ?_⟩
        · rw [← hdb]
          exact List.mem_append_right _ (List.mem_singleton.mpr rfl)
        · simp [insertedRecord, List.lookup]
      · rw [save_vas_reject_none_eq probe db u c p score col hu hc hp hpre hprobe hcol
          hchk (fun h => by rw [h] at hv; exact Option.noConfusion hv) hlat] at hsave
        rw [Prod.mk.injEq] at hsave
        exact VasOutcome.noConfusion hsave.1
    | some latest =>
      by_cases hst : latest.status = some "completed"
      · by_cases hpre : p = "pre"
        · subst hpre
          rw [save_vas_insert_completed_eq probe db u c score v col latest
            hu hc hprobe hcol hchk hv hlat hst] at hsave
          rw [Prod.mk.injEq, VasOutcome.ok.injEq] at hsave
          obtain ⟨⟨hmsg, hcol2, hval⟩, hdb⟩ := hsave
          refine ⟨hcol2.symm, hval.symm, insertedRecord db u c col v, ?_, ?_⟩
          · rw [← hdb]
            exact List.mem_append_right _ (List.mem_singleton.mpr rfl)
          · simp [insertedRecord, List.lookup]
        · rw [save_vas_reject_completed_eq probe db u c p score col latest hu hc hp hpre
            hprobe hcol hchk (fun h => by rw [h] at hv; exact Option.noConfusion hv)
            hlat hst] at hsave
          rw [Prod.mk.injEq] at hsave
          exact VasOutcome.noConfusion hsave.1
      · rw [save_vas_update_eq probe db u c p score v col latest
          hu hc hp hprobe hcol hchk hv hlat hst] at hsave
        rw [Prod.mk.injEq, VasOutcome.ok.injEq] at hsave
        obtain ⟨⟨hmsg, hcol2, hval⟩, hdb⟩ := hsave
        have hmem := latestRecord_mem hlat
        have hfeq : (fun r : VasRecord =>
            if r.id = latest.id then
              { r with fields := setField r.fields col v,
                       status := if p = "10-15" then some "completed" else r.status }
            else r) latest =
            { latest with fields := setField latest.fields col v,
                          status := if p = "10-15" then some "completed"
                                    else latest.status } := by
          beta_reduce
          rw [if_pos rfl]
        refine ⟨hcol2.symm, hval.symm,
          { latest with fields := setField latest.fields col v,
                        status := if p = "10-15" then some "completed"
                                  else latest.status }, ?_, ?_⟩
        · rw [← hdb]
          exact hfeq ▸ List.mem_map_of_mem _ hmem
        · exact lookup_setField latest.fields col v
  · intro hbad hscore reachNone reachSome
    exact save_vas_int_fail_eq probe db u c p score col hu hc hp hprobe hcol hchk
      hbad hscore reachNone reachSome

theorem save_vas_int_conversion_witness :
    save_vas (.row []) [] (some "p1") (some "weak") (some "pre") (.vstr "abc") =
      (.serverError "int conversion failed", []) :=
  (save_vas_int_conversion (.row []) [] "p1" "weak" "pre" (.vstr "abc") "vas_pre"
    (by decide) (Or.inl rfl) (Or.inl rfl) (by decide) rfl rfl).2.1
    (by decide) (by decide) (fun _ => rfl) (fun l hl => Option.noConfusion hl)

end StressExp
